import Mathlib

/-!
# Verification of the recording/transcription core of `gravadorjuridico`

Shallow embedding of the device/UI-independent logic of the repository:
the diarization segment merge (`app/detail/[id].tsx`), the LLM-response
parsing of `diarizeTranscription` (`services/ai.ts`), the recorder state
machine (`hooks/useRecorder.ts`), the provider adapters
(`services/openai.ts`, `services/gemini.ts`, `services/groq.ts`), the
database row helpers (`database/recordings.ts`) and the delete flow
(`app/index.tsx`).

JavaScript numbers are modelled as rationals (exact for every value the
program manipulates), JSON values as an inductive type, and the external
builtins `JSON.parse` / `JSON.stringify` as abstract function parameters:
the repository's own logic is embedded verbatim, the JS runtime is not.
-/

namespace Gravador

/-- A JSON value as produced by `JSON.parse`.  Objects are association
lists with distinct keys (the shape `JSON.parse` returns). -/
inductive Json where
  | null : Json
  | bool : Bool → Json
  | num : ℚ → Json
  | str : String → Json
  | arr : List Json → Json
  | obj : List (String × Json) → Json

/-- First binding of a key in an object's field list (JS property read). -/
def Json.lookup : List (String × Json) → String → Option Json
  | [], _ => none
  | (k, v) :: rest, key => if k = key then some v else Json.lookup rest key

/-- JavaScript truthiness of a JSON value (`NaN` does not arise: the
model has no floating point). -/
def jsTruthy : Json → Bool
  | .null => false
  | .bool b => b
  | .num q => q ≠ 0
  | .str s => s ≠ ""
  | .arr _ => true
  | .obj _ => true

/-- A timestamped transcription segment (`constants/ai.ts`):
`{start, end, text}`, seconds as JS numbers.  `end` is a Lean keyword,
hence the field name `end_`. -/
structure TimestampedSegment where
  start : ℚ
  end_ : ℚ
  text : String
deriving DecidableEq, Repr

/-- Result shape of `transcribeAudioWithTimestamps`:
`{segments, plainText}`. -/
structure TTResult where
  segments : List TimestampedSegment
  plainText : String
deriving DecidableEq, Repr

/-! ## String utilities: JS whitespace and `String.prototype.trim` -/

/-- JS whitespace: the `\s` characters that occur in the data this
program handles (space, tab, newline, carriage return, vertical tab,
form feed). -/
def isWs (c : Char) : Bool :=
  c = ' ' || c = '\t' || c = '\n' || c = '\r' || c = Char.ofNat 11 || c = Char.ofNat 12

/-- Drop leading and trailing whitespace from a character list. -/
def trimChars (l : List Char) : List Char :=
  ((l.dropWhile isWs).reverse.dropWhile isWs).reverse

/-- Model of `String.prototype.trim` (strips JS whitespace at both ends). -/
def jsTrim (s : String) : String := ⟨trimChars s.data⟩

/-! ## C1 — `handleDiarize` per-part segment merge (`app/detail/[id].tsx`,
lines 205–236)

The loop keeps a running `timeOffset`, shifts every segment of the current
part by it, appends, and then advances the offset. -/

/-- Offset advance after one part (lines 230–235 of `handleDiarize`):
`timeOffset += lastSeg.end > 0 ? lastSeg.end : 5` when the part returned
segments, `timeOffset += 5` otherwise. -/
def offsetAdvance (segs : List TimestampedSegment) : ℚ :=
  match segs.getLast? with
  | some lastSeg => if lastSeg.end_ > 0 then lastSeg.end_ else 5
  | none => 5

/-- Shift one segment by the running `timeOffset` (lines 220–226). -/
def shiftSegment (off : ℚ) (s : TimestampedSegment) : TimestampedSegment :=
  ⟨s.start + off, s.end_ + off, s.text⟩

/-- The per-part merge loop of `handleDiarize` (lines 208–236): for each
part in order, shift its segments by the running offset, append them to
the merged list, then advance the offset. -/
def mergeParts : List TTResult → ℚ → List TimestampedSegment
  | [], _ => []
  | r :: rest, off =>
      r.segments.map (shiftSegment off) ++ mergeParts rest (off + offsetAdvance r.segments)

/-- `plainTextParts` accumulation of the same loop (line 228):
`if (result.plainText) plainTextParts.push(result.plainText)`. -/
def mergedPlainTexts (rs : List TTResult) : List String :=
  (rs.map TTResult.plainText).filter (· ≠ "")

/-- Modelled from the spec's words (for the refinement statement of C1):
the offset of part `i` is the sum of the advances of the parts before it;
here computed by `scanl`, starting from `off`. -/
def specPartOffsets (off : ℚ) (rs : List TTResult) : List ℚ :=
  (List.scanl (fun o r => o + offsetAdvance r.segments) off rs).take rs.length

/-- Modelled from the spec's words: the merged list is the concatenation,
in part order, of each part's segments shifted by that part's offset. -/
def specMergeParts (off : ℚ) (rs : List TTResult) : List TimestampedSegment :=
  (((specPartOffsets off rs).zip rs).map
    (fun p => p.2.segments.map (shiftSegment p.1))).flatten

/-! ## C3 — live-transcript accumulation order
(`src/hooks/useRecorder.ts`, `transcribeChunk` lines 154–173)

`rotateChunk` fire-and-forgets each chunk transcription; the accumulator
update below runs once per *completion*, so the transcript grows in
completion order.  A run is modelled by the rotation-ordered list of
transcription results and by the order in which the background calls
complete (a permutation of the chunk indices). -/

/-- The accumulator update of `transcribeChunk` (lines 166–169): when the
result's trimmed text is non-empty, append it space-separated:
`transcriptionRef.current += (transcriptionRef.current ? ' ' : '') + text.trim()`. -/
def appendChunk (acc text : String) : String :=
  if jsTrim text ≠ "" then
    (if acc ≠ "" then acc ++ " " ++ jsTrim text else jsTrim text)
  else acc

/-- The live transcript observed after all completions: one
`appendChunk` per completed chunk, in completion order.  `results` is
indexed in rotation (temporal) order; `order` lists the indices in
completion order. -/
def finalTranscript (results : List String) (order : List Nat) : String :=
  order.foldl (fun acc i => appendChunk acc (results.getD i "")) ""

/-- Space-separated join of a list of strings. -/
def joinSp : List String → String
  | [] => ""
  | [x] => x
  | x :: y :: rest => x ++ " " ++ joinSp (y :: rest)

/-- The claim's value: trimmed, non-empty results joined in temporal
(rotation) order. -/
def temporalJoin (results : List String) : String :=
  joinSp ((results.map jsTrim).filter (· ≠ ""))

/-- Trimmed, non-empty results joined in completion order. -/
def completionJoin (results : List String) (order : List Nat) : String :=
  joinSp (((order.map (fun i => results.getD i "")).map jsTrim).filter (· ≠ ""))

/-! ## Recorder state machine (`src/hooks/useRecorder.ts`) — C4, C6

The hook's refs and React state collapse into one record; the filesystem
is the set of existing paths; the external transcription backend and the
`Date.now()` clock live in an environment record. -/

/-- An open capture stream (`AudioModule.AudioRecorder`): the model keeps
its observable `uri` (`null` before `prepareToRecordAsync`). -/
structure StreamHandle where
  uri : Option String
deriving DecidableEq

/-- `AppSettings` (`src/services/settings.ts`, lines 13–19). -/
structure AppSettings where
  provider : String
  apiKey : String
  transcriptionModel : String
  dossierModel : String
  liveTranscriptionEnabled : Bool
deriving DecidableEq

/-- `ai_${field}_${provider}` (`settings.ts`, lines 9–11). -/
def providerKey (provider field : String) : String :=
  "ai_" ++ field ++ "_" ++ provider

/-- `(await SecureStore.getItemAsync k) || dflt` — JS `||` keeps a
non-empty string, otherwise the default. -/
def jsOrDefault (v : Option String) (dflt : String) : String :=
  match v with
  | some s => if s = "" then dflt else s
  | none => dflt

/-- `getSettings` (`settings.ts`, lines 21–30); `store` abstracts
`SecureStore.getItemAsync`.  The live-transcription flag defaults to
`true`: it is `false` only when the stored raw value is `'false'`. -/
def getSettingsM (store : String → Option String) : AppSettings :=
  let provider := jsOrDefault (store "ai_provider") "openai"
  { provider := provider
    apiKey := jsOrDefault (store (providerKey provider "api_key")) ""
    transcriptionModel := jsOrDefault (store (providerKey provider "transcription_model")) ""
    dossierModel := jsOrDefault (store (providerKey provider "dossier_model")) ""
    liveTranscriptionEnabled := store "live_transcription_enabled" != some "false" }

/-- Environment of one recorder step: the settings `getSettings` returns,
the transcription backend (`some text` on success, `none` a thrown error),
the `Date.now()` value used in file names, and the uri the replacement
chunk recorder reports after `createRecorder`. -/
structure RecEnv where
  settings : AppSettings
  transcribe : String → Option String
  ts : Nat
  newChunkUri : String

/-- The hook's mutable state: refs (`durationRef`, `recorderRef`,
`fullRecorderRef`, `chunkFilesRef`, `transcriptionRef`, `isStoppingRef`),
React state, the two interval timers, the filesystem (existing paths) and
an audit trail of the uris sent to `transcribeAudio`. -/
structure RecorderState where
  isRecording : Bool
  isPaused : Bool
  isStopping : Bool
  timerOn : Bool
  chunkTimerOn : Bool
  durationRef : Nat
  fullRec : Option StreamHandle
  chunkRec : Option StreamHandle
  chunkFiles : List String
  transcription : String
  finalUri : Option String
  fs : List String
  transcribeCalls : List String
deriving DecidableEq

/-- `File.move`: the source path stops existing, the destination starts. -/
def fsMove (fs : List String) (src dst : String) : List String :=
  fs.filter (· ≠ src) ++ [dst]

/-- `saveCurrentChunk` (useRecorder.ts, lines 133–152): stop the chunk
recorder, move its file into the chunks cache under
`chunk_${Date.now()}.m4a`, record it in `chunkFilesRef`, and return the
new uri; `null` when there is no recorder, no uri, or no file.  The
recorder ref itself is left to the caller. -/
def saveCurrentChunk (env : RecEnv) (s : RecorderState) :
    Option String × RecorderState :=
  match s.chunkRec with
  | none => (none, s)
  | some rec =>
    match rec.uri with
    | none => (none, s)
    | some u =>
      if s.fs.contains u then
        let dst := "chunks/chunk_" ++ toString env.ts ++ ".m4a"
        (some dst, { s with fs := fsMove s.fs u dst,
                            chunkFiles := s.chunkFiles ++ [dst] })
      else (none, s)

/-- `transcribeChunk` (useRecorder.ts, lines 154–173): return early when
no API key is configured, otherwise call `transcribeAudio` and append a
non-empty trimmed result to the live transcript.  Backend errors are
swallowed (logged only).  Note: `settings.liveTranscriptionEnabled` is
never read here — only `settings.apiKey` gates the dispatch. -/
def transcribeChunkM (env : RecEnv) (s : RecorderState) (chunkUri : String) :
    RecorderState :=
  if env.settings.apiKey = "" then s
  else
    let s := { s with transcribeCalls := s.transcribeCalls ++ [chunkUri] }
    match env.transcribe chunkUri with
    | none => s
    | some text => { s with transcription := appendChunk s.transcription text }

/-- `rotateChunk` (useRecorder.ts, lines 175–193): skipped while stopping
or paused; otherwise close and persist the current chunk, immediately
start a replacement recorder (whose live file appears in the cache), and
dispatch the saved chunk for transcription. -/
def rotateChunk (env : RecEnv) (s : RecorderState) : RecorderState :=
  if s.isStopping || s.isPaused then s
  else
    let p := saveCurrentChunk env s
    let s₂ := { p.2 with chunkRec := some ⟨some env.newChunkUri⟩,
                         fs := p.2.fs ++ [env.newChunkUri] }
    match p.1 with
    | some u => transcribeChunkM env s₂ u
    | none => s₂

/-- The immutable bundle `stopRecording` resolves with
(useRecorder.ts, lines 277–283 and 347–353). -/
structure RecordingResult where
  fullUri : String
  uri : String
  duration : Nat
  transcription : String
  audioParts : List String
deriving DecidableEq

/-- `String(i + 1).padStart(3, '0')`. -/
def pad3 (n : Nat) : String :=
  ⟨List.replicate (3 - (toString n).length) '0'⟩ ++ toString n

/-- Step 3 of `stopRecording` (lines 326–338): move every recorded chunk
that still exists into the recordings directory under a zero-padded
sequence name, collecting the destination uris in order. -/
def moveChunksToRecordings (ts : Nat) : List String → Nat → List String →
    List String × List String
  | [], _, fs => ([], fs)
  | c :: rest, i, fs =>
    if fs.contains c then
      let dst := "recordings/gravacao_" ++ toString ts ++ "_" ++ pad3 (i + 1) ++ ".m4a"
      let p := moveChunksToRecordings ts rest (i + 1) (fsMove fs c dst)
      (dst :: p.1, p.2)
    else
      moveChunksToRecordings ts rest (i + 1) fs

/-- `stopRecording` (useRecorder.ts, lines 277–354).  Sets the stopping
flag and halts both tickers, drains and persists the full recorder,
drains the last chunk through `saveCurrentChunk` and transcribes it
(awaited), moves all chunks into durable storage, picks the primary uri
(full file, else first part, else `''`), updates the React state and
returns the result.  There is no guard on `isStopping` at entry. -/
def stopRecording (env : RecEnv) (s : RecorderState) :
    RecordingResult × RecorderState :=
  let s := { s with isStopping := true, timerOn := false, chunkTimerOn := false }
  let currentDuration := s.durationRef
  let p₁ : String × RecorderState :=
    match s.fullRec with
    | none => ("", s)
    | some rec =>
      let q : String × RecorderState :=
        match rec.uri with
        | some u =>
          if s.fs.contains u then
            let dst := "recordings/gravacao_" ++ toString env.ts ++ "_full.m4a"
            (dst, { s with fs := fsMove s.fs u dst })
          else ("", s)
        | none => ("", s)
      (q.1, { q.2 with fullRec := none })
  let fullFileUri := p₁.1
  let s := p₁.2
  let s :=
    match s.chunkRec with
    | none => s
    | some _ =>
      let q := saveCurrentChunk env s
      let s₂ :=
        match q.1 with
        | some u => transcribeChunkM env q.2 u
        | none => q.2
      { s₂ with chunkRec := none }
  let p₃ := moveChunksToRecordings env.ts s.chunkFiles 0 s.fs
  let s := { s with fs := p₃.2 }
  let primaryUri := if fullFileUri ≠ "" then fullFileUri else p₃.1.headD ""
  let s := { s with finalUri := some primaryUri, isRecording := false,
                    isPaused := false }
  (⟨fullFileUri, primaryUri, currentDuration, s.transcription, p₃.1⟩, s)

/-! ### Concrete inputs for the recorder theorems -/

/-- A mid-session state: full and chunk recorders live, one chunk already
rotated, live transcript `"a"`. -/
def demoState : RecorderState :=
  { isRecording := true, isPaused := false, isStopping := false
    timerOn := true, chunkTimerOn := true, durationRef := 7
    fullRec := some ⟨some "cache/full.tmp"⟩
    chunkRec := some ⟨some "cache/chunk.tmp"⟩
    chunkFiles := ["chunks/c1.m4a"], transcription := "a"
    finalUri := none
    fs := ["cache/full.tmp", "cache/chunk.tmp", "chunks/c1.m4a"]
    transcribeCalls := [] }

/-- Settings with an API key configured and live transcription ON. -/
def demoSettingsOn : AppSettings :=
  { provider := "openai", apiKey := "k", transcriptionModel := "m"
    dossierModel := "d", liveTranscriptionEnabled := true }

/-- Environment for a first `stopRecording` call. -/
def demoEnv : RecEnv :=
  { settings := demoSettingsOn, transcribe := fun _ => some "b"
    ts := 100, newChunkUri := "cache/rec2.tmp" }

/-- Environment for a second `stopRecording` call (later clock). -/
def demoEnv2 : RecEnv :=
  { settings := demoSettingsOn, transcribe := fun _ => some "b"
    ts := 200, newChunkUri := "cache/rec3.tmp" }

/-- A `SecureStore` whose live-transcription toggle is OFF and whose
OpenAI API key is configured. -/
def demoStoreOff : String → Option String := fun k =>
  if k = "ai_provider" then some "openai"
  else if k = "live_transcription_enabled" then some "false"
  else if k = "ai_api_key_openai" then some "k"
  else none

/-- Environment whose settings come from `demoStoreOff`
(live transcription disabled, API key present). -/
def demoEnvOff : RecEnv :=
  { settings := getSettingsM demoStoreOff, transcribe := fun _ => some "b"
    ts := 100, newChunkUri := "cache/rec2.tmp" }

/-- Same environment with the flag forced ON. -/
def demoEnvOn : RecEnv :=
  { demoEnvOff with settings := { getSettingsM demoStoreOff with liveTranscriptionEnabled := true } }

/-! ## Database rows, `getAudioParts` and deletion
(`src/database/recordings.ts`, `app/index.tsx`) — C7, C9 -/

/-- A row of the `recordings` table (interface `Recording`,
`database/recordings.ts`). -/
structure RecordingRow where
  id : Nat
  title : String
  file_path : String
  audio_parts : Option String
  duration : Nat
  transcription : Option String
  dialogue : Option String
  dossier : Option String
  created_at : String
  updated_at : String
deriving DecidableEq

/-- `getAudioParts` (`database/recordings.ts`, lines 396–403).  `parseArr`
abstracts `JSON.parse` at the declared result type `string[]`; `none`
models a parse throw, which the source catches and ignores.  A `null` or
empty `audio_parts` is falsy, so the fallback `[file_path]` is returned. -/
def getAudioParts (parseArr : String → Option (List String))
    (rec : RecordingRow) : List String :=
  match rec.audio_parts with
  | some s =>
    if s ≠ "" then
      match parseArr s with
      | some parts => parts
      | none => [rec.file_path]
    else [rec.file_path]
  | none => [rec.file_path]

/-- Outcome of the delete flow: the paths whose deletion was attempted
(existence probed, deleted when present) in order, the resulting
filesystem, and whether the database row was removed. -/
structure DeleteOutcome where
  attempted : List String
  fs : List String
  dbDeleted : Bool
deriving DecidableEq

/-- `File.delete` on a path: the path stops existing. -/
def fsDelete (fs : List String) (p : String) : List String :=
  fs.filter (· ≠ p)

/-- The part loop of `handleDelete` (`app/index.tsx`, lines 58–63): parts
equal to `file_path` are skipped; every other part is probed and deleted
when present. -/
def deleteParts (filePath : String) : List String → List String →
    List String × List String
  | [], fs => ([], fs)
  | p :: rest, fs =>
    if p = filePath then deleteParts filePath rest fs
    else
      let fs' := if fs.contains p then fsDelete fs p else fs
      let q := deleteParts filePath rest fs'
      (p :: q.1, q.2)

/-- The confirmed branch of `handleDelete` (`app/index.tsx`, lines
51–66): delete the main audio file, then every distinct part (I/O errors
swallowed by the empty `catch`), then always remove the database row. -/
def handleDelete (parseArr : String → Option (List String))
    (rec : RecordingRow) (fs : List String) : DeleteOutcome :=
  let fs₁ := if fs.contains rec.file_path then fsDelete fs rec.file_path else fs
  let parts := getAudioParts parseArr rec
  let q := deleteParts rec.file_path parts fs₁
  { attempted := rec.file_path :: q.1, fs := q.2, dbDeleted := true }

/-! ## Chat-completion dossier extraction
(`services/openai.ts`, `services/groq.ts`) — C10 -/

/-- `message` of a chat choice: `content` may be `null`. -/
structure ChatMessage where
  content : Option String
deriving DecidableEq

/-- One element of `response.choices`; `message` may be absent. -/
structure ChatChoice where
  message : Option ChatMessage
deriving DecidableEq

/-- A chat-completion response as the SDKs deliver it. -/
structure ChatCompletionResponse where
  choices : List ChatChoice
deriving DecidableEq

/-- `response.choices[0]?.message?.content || 'Erro ao gerar dossiê.'`
(`openai.ts`, line 139): any missing link of the optional chain, or an
empty content string, yields the fixed placeholder — not an error. -/
def generateDossierWithOpenAIResult (resp : ChatCompletionResponse) : String :=
  match resp.choices.head? with
  | some c =>
    match c.message with
    | some m =>
      match m.content with
      | some s => if s = "" then "Erro ao gerar dossiê." else s
      | none => "Erro ao gerar dossiê."
    | none => "Erro ao gerar dossiê."
  | none => "Erro ao gerar dossiê."

/-- `response.choices[0]?.message?.content || 'Erro ao gerar dossiê.'`
(`groq.ts`, line 98): the identical expression in the Groq adapter. -/
def generateDossierWithGroqResult (resp : ChatCompletionResponse) : String :=
  match resp.choices.head? with
  | some c =>
    match c.message with
    | some m =>
      match m.content with
      | some s => if s = "" then "Erro ao gerar dossiê." else s
      | none => "Erro ao gerar dossiê."
    | none => "Erro ao gerar dossiê."
  | none => "Erro ao gerar dossiê."

/-- The optional chain `choices[0]?.message?.content` by itself. -/
def messageContent (resp : ChatCompletionResponse) : Option String :=
  resp.choices.head?.bind fun c => c.message.bind fun m => m.content

/-- The persistence step of `handleGenerateDossier` (`app/detail/[id].tsx`,
lines 271–297): a falsy `recording.transcription` returns early; otherwise
the generated text is stored as the dossier unconditionally. -/
def handleGenerateDossierUpdate (rec : RecordingRow) (dossier : String) :
    RecordingRow :=
  match rec.transcription with
  | none => rec
  | some t => if t = "" then rec else { rec with dossier := some dossier }

/-! ## Diarized payloads and `isDiarizedTranscription`
(`src/constants/ai.ts`) — C8 -/

/-- A `DiarizedSegment` as `diarizeTranscription` builds it.  The source
keeps the raw JSON field values (`seg.speaker || 'Desconhecido'` does not
convert a truthy non-string), so the fields are JSON values; in the
intended schema all four are strings. -/
structure DiarizedSegmentV where
  speaker : Json
  start : Json
  end_ : Json
  text : Json

/-- The JSON object a `DiarizedSegment` stringifies to. -/
def encodeDiarizedSegment (s : DiarizedSegmentV) : Json :=
  .obj [("speaker", s.speaker), ("start", s.start), ("end", s.end_), ("text", s.text)]

/-- The tagged `DiarizedTranscription` payload
`{diarized: true, segments, plainText}` (`handleDiarize`, lines 247–251)
as the JSON value `JSON.stringify` receives. -/
def encodeDiarizedTranscription (segs : List DiarizedSegmentV)
    (plainText : String) : Json :=
  .obj [("diarized", .bool true),
        ("segments", .arr (segs.map encodeDiarizedSegment)),
        ("plainText", .str plainText)]

/-- `isDiarizedTranscription` (`constants/ai.ts`, lines 95–104): a falsy
input (null, empty) gives `null`; otherwise `JSON.parse` (abstracted by
`parse`; `none` models a throw, caught by the source) and the guard
`parsed && parsed.diarized === true && Array.isArray(parsed.segments)`;
on success the parsed value itself is returned. -/
def isDiarizedTranscriptionM (parse : String → Option Json)
    (value : Option String) : Option Json :=
  match value with
  | none => none
  | some s =>
    if s = "" then none
    else
      match parse s with
      | none => none
      | some parsed =>
        if jsTruthy parsed then
          match parsed with
          | .obj fields =>
            match Json.lookup fields "diarized", Json.lookup fields "segments" with
            | some (.bool true), some (.arr _) => some parsed
            | _, _ => none
          | _ => none
        else none

/-! ## `diarizeTranscription` response handling (`src/services/ai.ts`,
lines 86–130) — C2

The LLM call itself is external; the embedded part is the prompt
formatting and, mainly, the response pipeline: strip markdown fences,
`JSON.parse`, accept a bare array or an object's `segments` array, coerce
every element, and convert any throw inside the `try` into the fixed
parse error. -/

/-- `String(n).padStart(2, '0')`. -/
def pad2 (n : Nat) : String :=
  if n < 10 then "0" ++ toString n else toString n

/-- `formatTimestamp` (`constants/ai.ts`, lines 89–93):
`MM:SS` with `Math.floor`, modelled for the nonnegative timestamps the
pipeline produces. -/
def formatTimestamp (seconds : ℚ) : String :=
  let mins : Nat := (Int.floor (seconds / 60)).toNat
  let secs : Nat := (Int.floor (seconds - 60 * (mins : ℚ))).toNat
  pad2 mins ++ ":" ++ pad2 secs

/-- Lines 93–96 of `diarizeTranscription`: segments with non-blank text
formatted as `[MM:SS - MM:SS] "text"`, newline-joined, for the prompt. -/
def formatSegmentsForPrompt (segs : List TimestampedSegment) : String :=
  String.intercalate "\n"
    ((segs.filter (fun s => jsTrim s.text ≠ "")).map
      (fun s => "[" ++ formatTimestamp s.start ++ " - " ++ formatTimestamp s.end_
        ++ "] \"" ++ s.text ++ "\""))

/-- One global-regex replace of `/```json\s*/` by `''`: at a match the
literal and the greedily consumed whitespace are removed and scanning
resumes after them, exactly as JS `String.replace` with a `/g` regex. -/
def stripJsonFences : List Char → List Char
  | [] => []
  | c :: rest =>
    if h : (c :: rest).take 7 = ['`', '`', '`', 'j', 's', 'o', 'n'] then
      stripJsonFences (((c :: rest).drop 7).dropWhile isWs)
    else
      c :: stripJsonFences rest
termination_by l => l.length
decreasing_by
  · have hle : ∀ l : List Char, (l.dropWhile isWs).length ≤ l.length := by
      intro l
      induction l with
      | nil => simp [List.dropWhile]
      | cons a l ih =>
        rw [List.dropWhile_cons]
        split
        · exact Nat.le_succ_of_le ih
        · simp
    have h7 : 7 ≤ (c :: rest).length := by
      have ht : (List.take 7 (c :: rest)).length = 7 := by rw [h]; rfl
      rw [List.length_take] at ht
      exact min_eq_left_iff.mp ht
    calc (((c :: rest).drop 7).dropWhile isWs).length
        ≤ ((c :: rest).drop 7).length := hle _
      _ = (c :: rest).length - 7 := by rw [List.length_drop]
      _ < (c :: rest).length := by omega
  · simp

/-- One global-regex replace of `/```\s*/` by `''` (same semantics). -/
def stripBareFences : List Char → List Char
  | [] => []
  | c :: rest =>
    if h : (c :: rest).take 3 = ['`', '`', '`'] then
      stripBareFences (((c :: rest).drop 3).dropWhile isWs)
    else
      c :: stripBareFences rest
termination_by l => l.length
decreasing_by
  · have hle : ∀ l : List Char, (l.dropWhile isWs).length ≤ l.length := by
      intro l
      induction l with
      | nil => simp [List.dropWhile]
      | cons a l ih =>
        rw [List.dropWhile_cons]
        split
        · exact Nat.le_succ_of_le ih
        · simp
    have h3 : 3 ≤ (c :: rest).length := by
      have ht : (List.take 3 (c :: rest)).length = 3 := by rw [h]; rfl
      rw [List.length_take] at ht
      exact min_eq_left_iff.mp ht
    calc (((c :: rest).drop 3).dropWhile isWs).length
        ≤ ((c :: rest).drop 3).length := hle _
      _ = (c :: rest).length - 3 := by rw [List.length_drop]
      _ < (c :: rest).length := by omega
  · simp

/-- Line 116: `response.replace(/```json\s*/g, '').replace(/```\s*/g, '').trim()`. -/
def cleanResponse (r : List Char) : List Char :=
  trimChars (stripBareFences (stripJsonFences r))

/-- `cleanResponse` on strings. -/
def cleanResponseStr (s : String) : String := ⟨cleanResponse s.data⟩

/-- `x.segments || []` as the provider decoders evaluate it: property
access on `null` throws (`error`), a truthy non-array `segments` makes the
subsequent `.map` throw (`error`), anything else (absent field, falsy
value, non-object receiver) yields `[]`. -/
def segmentsField : Json → Except Unit (List Json)
  | .null => .error ()
  | .obj fields =>
    match Json.lookup fields "segments" with
    | some (.arr es) => .ok es
    | some v => if jsTruthy v then .error () else .ok []
    | none => .ok []
  | _ => .ok []

/-- Line 119: `Array.isArray(parsed) ? parsed : parsed.segments || []`. -/
def segmentsOfParsed : Json → Except Unit (List Json)
  | .arr es => .ok es
  | j => segmentsField j

/-- `seg.k || dflt` on an object: the raw field value when truthy,
otherwise the default. -/
def jsFieldOr (fields : List (String × Json)) (key : String) (dflt : Json) : Json :=
  match Json.lookup fields key with
  | some v => if jsTruthy v then v else dflt
  | none => dflt

/-- Coercion of one element (lines 120–125).  Property access on a `null`
element throws (caught by the surrounding `catch`); on a non-object JS
value every access yields `undefined`, so all defaults apply. -/
def coerceDiarizedSegment : Json → Except Unit DiarizedSegmentV
  | .null => .error ()
  | .obj fields =>
    .ok ⟨jsFieldOr fields "speaker" (.str "Desconhecido"),
         jsFieldOr fields "start" (.str "00:00"),
         jsFieldOr fields "end" (.str "00:00"),
         jsFieldOr fields "text" (.str "")⟩
  | _ => .ok ⟨.str "Desconhecido", .str "00:00", .str "00:00", .str ""⟩

/-- The diarization failure (`'Falha ao interpretar resposta da
diarização. Tente novamente.'`). -/
inductive DiarizeError where
  | parseError
deriving DecidableEq

/-- Lines 115–130 of `diarizeTranscription`: clean the LLM response,
`JSON.parse` it (`parse` abstracts the builtin), extract the segment
array, coerce each element; every throw inside the `try` becomes the
parse error. -/
def parseDiarizationResponse (parse : String → Option Json)
    (response : String) : Except DiarizeError (List DiarizedSegmentV) :=
  match parse (cleanResponseStr response) with
  | none => .error .parseError
  | some parsed =>
    match segmentsOfParsed parsed with
    | .error _ => .error .parseError
    | .ok es =>
      match es.mapM coerceDiarizedSegment with
      | .error _ => .error .parseError
      | .ok segs => .ok segs

/-- The persistence step of `handleDiarize` (`app/detail/[id].tsx`, lines
238–268): on success write the stringified tagged payload to `dialogue`
and backfill a falsy `transcription` with the joined plain texts; on the
parse error the `catch` only raises an alert — the record is untouched. -/
def handleDiarizeUpdate (stringify : Json → String)
    (parse : String → Option Json) (rec : RecordingRow)
    (partResults : List TTResult) (llmResponse : String) : RecordingRow :=
  match parseDiarizationResponse parse llmResponse with
  | .error _ => rec
  | .ok segs =>
    let plain := String.intercalate " " (mergedPlainTexts partResults)
    let payload := stringify (encodeDiarizedTranscription segs plain)
    let rec₁ := { rec with dialogue := some payload }
    match rec.transcription with
    | none => { rec₁ with transcription := some plain }
    | some t => if t = "" then { rec₁ with transcription := some plain } else rec₁

/-! ## Timestamped transcription adapters (`services/openai.ts`,
`services/groq.ts`, `services/gemini.ts`) — C5

The HTTP/SDK exchange is abstracted into a response value; the embedded
part is each adapter's decoding of it. -/

/-- An HTTP transcription response: `ok`, the body as text
(`response.text()`), and the body parsed as JSON (`response.json()`;
`none` models a parse throw). -/
structure HttpResponse where
  ok : Bool
  bodyText : String
  bodyJson : Option Json

/-- Errors of the transcription adapters. -/
inductive TranscribeError where
  /-- `'Arquivo de áudio não encontrado'` -/
  | fileNotFound
  /-- `'Erro na transcrição …: ' + body` -/
  | backend (body : String)
  /-- an uncaught throw while decoding the JSON body -/
  | jsonThrow
deriving DecidableEq

/-- A numeric JSON field read verbatim (`start: seg.start`).  Absent or
non-numeric values fall outside the documented whisper schema (JS would
carry `undefined` into later arithmetic); the model reads them as `0`. -/
def jsNumD : Option Json → ℚ
  | some (.num q) => q
  | _ => 0

/-- `seg.text?.trim() || ''`: a string is trimmed (blank gives `''`), a
nullish field gives `''`.  (A non-string `text` is outside the documented
schema; the model reads it as absent.) -/
def segTextVerbose (fields : List (String × Json)) : String :=
  match Json.lookup fields "text" with
  | some (.str s) => jsTrim s
  | _ => ""

/-- Element coercion of the `verbose_json` decoders (`openai.ts`, lines
108–112; `groq.ts`, lines 72–76): `{start: seg.start, end: seg.end,
text: seg.text?.trim() || ''}`.  A `null` element throws on property
access (uncaught there — the returned promise rejects). -/
def coerceVerboseSegment : Json → Except Unit TimestampedSegment
  | .null => .error ()
  | .obj fields =>
    .ok ⟨jsNumD (Json.lookup fields "start"), jsNumD (Json.lookup fields "end"),
         segTextVerbose fields⟩
  | _ => .ok ⟨0, 0, ""⟩

/-- `data.text || ''`: the top-level full text, `''` when absent or
falsy. -/
def jsStrFieldD (data : Json) (key : String) : String :=
  match data with
  | .obj fields =>
    match Json.lookup fields key with
    | some (.str s) => s
    | _ => ""
  | _ => ""

/-- `transcribeWithOpenAITimestamped` (`openai.ts`, lines 67–119).
`verbose_json` only works with `whisper-1`; for any other model the
request is sent as plain text and the result degrades to one
`{start: 0, end: 0}` segment carrying the whole trimmed text. -/
def transcribeWithOpenAITimestamped (model : String) (fileExists : Bool)
    (resp : HttpResponse) : Except TranscribeError TTResult :=
  if !fileExists then .error .fileNotFound
  else
    let useVerbose := model == "whisper-1"
    if !resp.ok then .error (.backend resp.bodyText)
    else if useVerbose then
      match resp.bodyJson with
      | none => .error .jsonThrow
      | some data =>
        match segmentsField data with
        | .error _ => .error .jsonThrow
        | .ok es =>
          match es.mapM coerceVerboseSegment with
          | .error _ => .error .jsonThrow
          | .ok segs => .ok ⟨segs, jsStrFieldD data "text"⟩
    else
      .ok ⟨[⟨0, 0, jsTrim resp.bodyText⟩], jsTrim resp.bodyText⟩

/-- `transcribeWithGroqTimestamped` (`groq.ts`, lines 39–78): always
requests `verbose_json`; there is no fallback path, so a reply without
`segments` decodes to an empty segment list. -/
def transcribeWithGroqTimestamped (fileExists : Bool) (resp : HttpResponse) :
    Except TranscribeError TTResult :=
  if !fileExists then .error .fileNotFound
  else if !resp.ok then .error (.backend resp.bodyText)
  else
    match resp.bodyJson with
    | none => .error .jsonThrow
    | some data =>
      match segmentsField data with
      | .error _ => .error .jsonThrow
      | .ok es =>
        match es.mapM coerceVerboseSegment with
        | .error _ => .error .jsonThrow
        | .ok segs => .ok ⟨segs, jsStrFieldD data "text"⟩

/-- Digits of an unsigned decimal integer. -/
def digitsVal (l : List Char) : Nat :=
  l.foldl (fun n c => n * 10 + (c.toNat - 48)) 0

/-- `Number(string)` for the decimal literals that occur here: optional
sign, digits, optional fraction; anything else is `NaN` (`none`).  The
empty string converts to `0`. -/
def parseDecimal (s : String) : Option ℚ :=
  let l := (jsTrim s).data
  match l with
  | [] => some 0
  | _ =>
    let f : List Char → Option ℚ := fun l =>
      let ip := l.takeWhile Char.isDigit
      let rest := l.dropWhile Char.isDigit
      if ip = [] then none
      else
        match rest with
        | [] => some (digitsVal ip : ℚ)
        | '.' :: fr =>
          if fr ≠ [] && fr.all Char.isDigit then
            some ((digitsVal ip : ℚ) + (digitsVal fr : ℚ) / ((10 : ℚ) ^ fr.length))
          else none
        | _ => none
    match l with
    | '-' :: r => (f r).map Neg.neg
    | _ => f l

/-- `Number(x) || 0` (`gemini.ts`, lines 75–76): numeric coercion with a
`0` fallback for falsy/`NaN` results.  Arrays and objects coerce through
strings in JS; the model reads them as `0` (no theorem exercises them). -/
def numberOr0 : Json → ℚ
  | .num q => q
  | .null => 0
  | .bool b => if b then 1 else 0
  | .str s => (parseDecimal s).getD 0
  | .arr _ => 0
  | .obj _ => 0

/-- `Number(seg.start) || 0` on an optional field
(`Number(undefined)` is `NaN`, so an absent field gives `0`). -/
def numberOr0D : Option Json → ℚ
  | some j => numberOr0 j
  | none => 0

/-- `(seg.text || '').trim()` (`gemini.ts`, line 77): a truthy non-string
would make `.trim` throw — inside Gemini's `try`, so it triggers the
fallback (`error` here). -/
def segTextGemini (fields : List (String × Json)) : Except Unit String :=
  match Json.lookup fields "text" with
  | some (.str s) => .ok (jsTrim s)
  | some v => if jsTruthy v then .error () else .ok ""
  | none => .ok ""

/-- Gemini element coercion (`gemini.ts`, lines 74–78); a `null` element
throws on property access (caught by the surrounding `try`). -/
def coerceGeminiSegment : Json → Except Unit TimestampedSegment
  | .null => .error ()
  | .obj fields =>
    match segTextGemini fields with
    | .error _ => .error ()
    | .ok t =>
      .ok ⟨numberOr0D (Json.lookup fields "start"),
           numberOr0D (Json.lookup fields "end"), t⟩
  | _ => .ok ⟨0, 0, ""⟩

/-- `data.text || segments.map(s => s.text).join(' ')`
(`gemini.ts`, line 79). -/
def geminiPlainText (data : Json) (segs : List TimestampedSegment) : String :=
  match data with
  | .obj fields =>
    match Json.lookup fields "text" with
    | some (.str s) =>
      if s = "" then String.intercalate " " (segs.map (·.text)) else s
    | _ => String.intercalate " " (segs.map (·.text))
  | _ => String.intercalate " " (segs.map (·.text))

/-- `transcribeWithGeminiTimestamped` (`gemini.ts`, lines 41–84): the
model's reply `raw` is parsed inside a `try`; any throw (unparseable
JSON, bad element shapes) falls back to one `{start: 0, end: 0}` segment
with the whole trimmed reply. -/
def transcribeWithGeminiTimestamped (parse : String → Option Json)
    (raw : String) : Except TranscribeError TTResult :=
  match parse raw with
  | none => .ok ⟨[⟨0, 0, jsTrim raw⟩], jsTrim raw⟩
  | some data =>
    match segmentsField data >>= (·.mapM coerceGeminiSegment) with
    | .error _ => .ok ⟨[⟨0, 0, jsTrim raw⟩], jsTrim raw⟩
    | .ok segs => .ok ⟨segs, geminiPlainText data segs⟩

/-- A successful Groq reply carrying a transcript but no `segments`
field. -/
def groqNoSegmentsResp : HttpResponse :=
  { ok := true, bodyText := "\x7b\x22text\x22:\x22hello\x22\x7d"
    bodyJson := some (.obj [("text", .str "hello")]) }

/-! # Theorems -/

/-! ## C1 — segment merge -/

theorem mergeParts_eq_specMergeParts (rs : List TTResult) :
    ∀ off : ℚ, mergeParts rs off = specMergeParts off rs := by
  induction rs with
  | nil =>
    intro off
    simp [mergeParts, specMergeParts, specPartOffsets]
  | cons r rest ih =>
    intro off
    simp only [mergeParts, specMergeParts, specPartOffsets, List.scanl,
      List.length_cons, List.take_succ_cons, List.zip_cons_cons, List.map_cons,
      List.flatten_cons]
    rw [ih]
    rfl

/-- Claim C1: the per-part diarization pipeline merges parts by adding a
running `timeOffset` to each segment, appending in part order, and after
each part advances the offset by the last segment's positive `end`, else
by 5 seconds (also for empty parts); this sequential loop equals the
closed-form merge described by the spec, reproduces the spec's
three-part example, and an empty part advances the offset by exactly 5. -/
theorem mergeParts_spec :
    (∀ rs : List TTResult, mergeParts rs 0 = specMergeParts 0 rs) ∧
    (mergeParts [⟨[⟨0, 5, "a"⟩], "a"⟩, ⟨[⟨0, 5, "b"⟩], "b"⟩, ⟨[⟨0, 3, "c"⟩], "c"⟩] 0
      = [⟨0, 5, "a"⟩, ⟨5, 10, "b"⟩, ⟨10, 13, "c"⟩]) ∧
    (∀ (r : TTResult) (rest : List TTResult) (off : ℚ), r.segments = [] →
      mergeParts (r :: rest) off = mergeParts rest (off + 5)) := by
  refine ⟨fun rs => mergeParts_eq_specMergeParts rs 0, ?_, ?_⟩
  · norm_num [mergeParts, offsetAdvance, shiftSegment]
  · intro r rest off h
    simp [mergeParts, offsetAdvance, h]

theorem mergeParts_spec_witness :
    (⟨[], "t"⟩ : TTResult).segments = [] ∧
    mergeParts [⟨[], "t"⟩, ⟨[⟨0, 2, "x"⟩], "x"⟩] 1 = mergeParts [⟨[⟨0, 2, "x"⟩], "x"⟩] (1 + 5) :=
  ⟨rfl, mergeParts_spec.2.2 ⟨[], "t"⟩ [⟨[⟨0, 2, "x"⟩], "x"⟩] 1 rfl⟩

/-! ## C3 — accumulation order of the live transcript -/

theorem sp_append_ne_empty (a b : String) : a ++ " " ++ b ≠ "" := by
  intro h
  have hd : (a ++ " " ++ b).data = ([] : List Char) := by rw [h]
  rw [String.data_append, String.data_append] at hd
  simp at hd

theorem joinSp_glue (a b : String) (r : List String) :
    joinSp ((a ++ " " ++ b) :: r) = a ++ " " ++ joinSp (b :: r) := by
  cases r with
  | nil => simp [joinSp]
  | cons c r' => simp [joinSp, String.append_assoc]

theorem foldl_appendChunk (ts : List String) :
    ∀ acc : String, ts.foldl appendChunk acc
      = joinSp ((if acc = "" then [] else [acc]) ++ (ts.map jsTrim).filter (· ≠ "")) := by
  induction ts with
  | nil =>
    intro acc
    by_cases hacc : acc = "" <;> simp [hacc, joinSp]
  | cons t ts ih =>
    intro acc
    rw [List.foldl_cons, ih]
    by_cases ht : jsTrim t = ""
    · simp [appendChunk, ht, List.filter_cons]
    · by_cases hacc : acc = ""
      · simp [appendChunk, ht, hacc, List.filter_cons]
      · have happ : appendChunk acc t = acc ++ " " ++ jsTrim t := by
          simp [appendChunk, ht, hacc]
        have h2 : (acc ++ " " ++ jsTrim t) ≠ "" := sp_append_ne_empty acc (jsTrim t)
        rw [happ, if_neg h2, if_neg hacc, List.map_cons, List.filter_cons,
          if_pos (by simp [ht]), List.singleton_append, List.singleton_append,
          joinSp_glue]
        rfl

theorem range_map_getD (l : List String) :
    (List.range l.length).map (fun i => l.getD i "") = l := by
  induction l with
  | nil => simp
  | cons a l ih =>
    rw [List.length_cons, List.range_succ_eq_map, List.map_cons, List.map_map]
    simp only [List.getD_cons_zero]
    congr 1

/-- Claim C3 (amended): the live transcript after `stop()` equals the
space-joined, trimmed, non-empty transcription results in COMPLETION
order; when completions arrive in rotation order, this coincides with the
temporal-order join the claim states. -/
theorem finalTranscript_completion_order :
    (∀ (results : List String) (order : List Nat),
      finalTranscript results order = completionJoin results order) ∧
    (∀ results : List String,
      finalTranscript results (List.range results.length) = temporalJoin results) := by
  constructor
  · intro results order
    rw [finalTranscript, completionJoin, show
      (fun (acc : String) (i : Nat) => appendChunk acc (results.getD i "")) =
        (fun acc i => appendChunk acc ((fun j => results.getD j "") i)) from rfl,
      ← List.foldl_map, foldl_appendChunk]
    simp
  · intro results
    rw [finalTranscript, show
      (fun (acc : String) (i : Nat) => appendChunk acc (results.getD i "")) =
        (fun acc i => appendChunk acc ((fun j => results.getD j "") i)) from rfl,
      ← List.foldl_map, range_map_getD, foldl_appendChunk, temporalJoin]
    simp

/-- Claim C3 is false as stated: with chunk results `["a", "b"]` in
rotation order and the second chunk's transcription completing first
(completion order `[1, 0]`, a permutation of the indices), the
accumulator yields `"b a"`, not the temporal-order join `"a b"`. -/
theorem finalTranscript_completion_order_counterexample :
    List.Perm [1, 0] (List.range 2) ∧
    finalTranscript ["a", "b"] [1, 0] = "b a" ∧
    temporalJoin ["a", "b"] = "a b" ∧
    finalTranscript ["a", "b"] [1, 0] ≠ temporalJoin ["a", "b"] := by
  refine ⟨by decide, by decide, by decide, by decide⟩

/-! ## C9 — `getAudioParts` fallback -/

/-- Claim C9: for a row whose `audio_parts` is null or fails to parse as
JSON, `getAudioParts` returns `[file_path]`; being a total function, it
never throws, so every recording has at least one playable path. -/
theorem getAudioParts_fallback :
    (∀ (parseArr : String → Option (List String)) (rec : RecordingRow),
      rec.audio_parts = none → getAudioParts parseArr rec = [rec.file_path]) ∧
    (∀ (parseArr : String → Option (List String)) (rec : RecordingRow) (s : String),
      rec.audio_parts = some s → parseArr s = none →
      getAudioParts parseArr rec = [rec.file_path]) := by
  constructor
  · intro parseArr rec h
    simp [getAudioParts, h]
  · intro parseArr rec s h hp
    rw [getAudioParts, h]
    by_cases hs : s = "" <;> simp [hs, hp]

theorem getAudioParts_fallback_witness :
    getAudioParts (fun _ => none)
      ⟨1, "t", "f.m4a", none, 3, none, none, none, "c", "u"⟩ = ["f.m4a"] ∧
    getAudioParts (fun _ => none)
      ⟨1, "t", "f.m4a", some "oops", 3, none, none, none, "c", "u"⟩ = ["f.m4a"] :=
  ⟨getAudioParts_fallback.1 (fun _ => none) _ rfl,
   getAudioParts_fallback.2 (fun _ => none) _ "oops" rfl rfl⟩

/-! ## C10 — dossier placeholder on missing content -/

/-- Claim C10: when the chat-completion response carries no message
content (or an empty one), the OpenAI and Groq dossier adapters do not
error: they return the fixed placeholder `'Erro ao gerar dossiê.'` as a
successful result, which the caller stores as the dossier. -/
theorem generateDossier_placeholder :
    ∀ resp : ChatCompletionResponse,
      messageContent resp = none ∨ messageContent resp = some "" →
      generateDossierWithOpenAIResult resp = "Erro ao gerar dossiê." ∧
      generateDossierWithGroqResult resp = "Erro ao gerar dossiê." ∧
      (∀ (rec : RecordingRow) (t : String), rec.transcription = some t → t ≠ "" →
        (handleGenerateDossierUpdate rec (generateDossierWithOpenAIResult resp)).dossier
          = some "Erro ao gerar dossiê.") := by
  intro resp h
  have hmain : generateDossierWithOpenAIResult resp = "Erro ao gerar dossiê." := by
    rcases resp with ⟨choices⟩
    cases choices with
    | nil => rfl
    | cons c cs =>
      rcases c with ⟨msg⟩
      cases msg with
      | none => rfl
      | some m =>
        rcases m with ⟨content⟩
        cases content with
        | none => rfl
        | some s =>
          simp only [messageContent, List.head?_cons, Option.some_bind] at h
          rcases h with h | h
          · cases h
          · rw [Option.some_inj] at h
            simp [generateDossierWithOpenAIResult, h]
  have hgroq : generateDossierWithGroqResult resp = "Erro ao gerar dossiê." := hmain
  refine ⟨hmain, hgroq, ?_⟩
  intro rec t h1 h2
  simp [handleGenerateDossierUpdate, h1, h2, hmain]

/-! ## C5 — timestamped-transcription degradation -/

/-- Claim C5 is false as stated: a successful Groq reply without a
`segments` field — and equally an OpenAI `whisper-1` verbose reply
without one — decodes to an EMPTY segment list (with the full text as
`plainText`), not to the single `{start: 0, end: 0}` fallback segment;
the caller does receive an empty segment list. -/
theorem groq_no_segments_empty_list :
    transcribeWithGroqTimestamped true groqNoSegmentsResp = .ok ⟨[], "hello"⟩ ∧
    transcribeWithOpenAITimestamped "whisper-1" true groqNoSegmentsResp
      = .ok ⟨[], "hello"⟩ := by
  exact ⟨rfl, rfl⟩

/-- Claim C5 (amended): the graceful single-segment degradation exists
for OpenAI with any model other than `whisper-1` (plain-text mode) and
for Gemini whenever the reply is not parseable JSON; Groq — and OpenAI in
`whisper-1` verbose mode — has no such fallback and returns a non-error
result with an empty segment list when the reply carries no `segments`
(callers handle the empty case separately, cf. the C1 offset fallback). -/
theorem transcribeTimestamped_fallbacks :
    (∀ (model : String) (resp : HttpResponse),
      model ≠ "whisper-1" → resp.ok = true →
      transcribeWithOpenAITimestamped model true resp
        = .ok ⟨[⟨0, 0, jsTrim resp.bodyText⟩], jsTrim resp.bodyText⟩) ∧
    (∀ (parse : String → Option Json) (raw : String), parse raw = none →
      transcribeWithGeminiTimestamped parse raw
        = .ok ⟨[⟨0, 0, jsTrim raw⟩], jsTrim raw⟩) ∧
    (∀ (resp : HttpResponse) (fields : List (String × Json)),
      resp.ok = true → resp.bodyJson = some (.obj fields) →
      Json.lookup fields "segments" = none →
      transcribeWithGroqTimestamped true resp
        = .ok ⟨[], jsStrFieldD (.obj fields) "text"⟩) := by
  refine ⟨?_, ?_, ?_⟩
  · intro model resp hmodel hok
    simp [transcribeWithOpenAITimestamped, hok, hmodel]
  · intro parse raw hp
    simp [transcribeWithGeminiTimestamped, hp]
  · intro resp fields hok hjson hlook
    simp [transcribeWithGroqTimestamped, hok, hjson, segmentsField, hlook,
      List.mapM]
    rfl

theorem transcribeTimestamped_fallbacks_witness :
    transcribeWithOpenAITimestamped "gpt-4o-mini-transcribe" true
      ⟨true, " hi ", none⟩ = .ok ⟨[⟨0, 0, "hi"⟩], "hi"⟩ ∧
    transcribeWithGeminiTimestamped (fun _ => none) "oops"
      = .ok ⟨[⟨0, 0, "oops"⟩], "oops"⟩ ∧
    transcribeWithGroqTimestamped true groqNoSegmentsResp = .ok ⟨[], "hello"⟩ := by
  obtain ⟨h1, h2, h3⟩ := transcribeTimestamped_fallbacks
  exact ⟨h1 "gpt-4o-mini-transcribe" ⟨true, " hi ", none⟩ (by decide) rfl,
    h2 (fun _ => none) "oops" rfl,
    h3 groqNoSegmentsResp [("text", .str "hello")] rfl rfl rfl⟩

/-! ## C6 — the live-transcription toggle is never consulted -/

/-- Claim C6 (code bug): the recorder's behaviour is entirely independent
of `liveTranscriptionEnabled` — rotation, persistence and
`closedChunkPaths` are indeed unaffected by the flag, but only because
`useRecorder` never reads it: with the stored toggle `'false'` and an API
key configured, a rotation still dispatches the chunk transcription,
contradicting the claimed suppression. -/
theorem liveTranscription_flag_ignored :
    (∀ (env : RecEnv) (b : Bool) (s : RecorderState),
      rotateChunk
        { env with settings := { env.settings with liveTranscriptionEnabled := b } } s
        = rotateChunk env s) ∧
    (getSettingsM demoStoreOff).liveTranscriptionEnabled = false ∧
    (rotateChunk demoEnvOff demoState).transcribeCalls = ["chunks/chunk_100.m4a"] ∧
    (rotateChunk demoEnvOff demoState).chunkFiles
      = (rotateChunk demoEnvOn demoState).chunkFiles ∧
    (rotateChunk demoEnvOff demoState).chunkFiles
      = ["chunks/c1.m4a", "chunks/chunk_100.m4a"] := by
  refine ⟨fun env b s => rfl, by decide, by decide, by decide, by decide⟩

/-! ## C4 — `stop()` is not idempotent while stopping -/

/-- Claim C4 is false as stated: `stopRecording` has no guard on the
stopping flag.  After a first stop (which leaves `isStopping = true`), a
second invocation does not return the prior pending result: it returns a
fresh result with empty primary uri and empty part list, and it changes
state again (`finalUri` is overwritten with `''`). -/
theorem stopRecording_second_call_differs :
    (stopRecording demoEnv demoState).2.isStopping = true ∧
    (stopRecording demoEnv demoState).1.uri = "recordings/gravacao_100_full.m4a" ∧
    (stopRecording demoEnv2 (stopRecording demoEnv demoState).2).1
      ≠ (stopRecording demoEnv demoState).1 ∧
    (stopRecording demoEnv2 (stopRecording demoEnv demoState).2).1.uri = "" ∧
    (stopRecording demoEnv2 (stopRecording demoEnv demoState).2).2.finalUri
      ≠ (stopRecording demoEnv demoState).2.finalUri := by
  refine ⟨by decide, by decide, by decide, by decide, by decide⟩

theorem moveChunksToRecordings_none (ts : Nat) :
    ∀ (chunks : List String) (i : Nat) (fs : List String),
      (∀ c ∈ chunks, c ∉ fs) →
      moveChunksToRecordings ts chunks i fs = ([], fs) := by
  intro chunks
  induction chunks with
  | nil => intro i fs _; rfl
  | cons c rest ih =>
    intro i fs h
    have hmem : c ∉ fs := h c (List.mem_cons_self c rest)
    have hc : fs.contains c = false := by simp [hmem]
    rw [show moveChunksToRecordings ts (c :: rest) i fs
        = moveChunksToRecordings ts rest (i + 1) fs from by
      simp [moveChunksToRecordings, hc, hmem]]
    exact ih (i + 1) fs fun x hx => h x (List.mem_cons_of_mem c hx)

/-- Claim C4 (amended): `stopRecording` is not guarded, but re-running it
on an already-drained state (recorder refs cleared, chunks already moved)
performs no file moves and no transcription calls and keeps the duration
and transcript; it returns a fresh result whose full/primary uris and
part list are empty — not the prior pending result — and overwrites
`finalUri` with `''`. -/
theorem stopRecording_rerun_after_drain :
    ∀ (env : RecEnv) (s : RecorderState),
      s.fullRec = none → s.chunkRec = none →
      (∀ c ∈ s.chunkFiles, c ∉ s.fs) →
      (stopRecording env s).1.fullUri = "" ∧
      (stopRecording env s).1.uri = "" ∧
      (stopRecording env s).1.audioParts = [] ∧
      (stopRecording env s).1.duration = s.durationRef ∧
      (stopRecording env s).1.transcription = s.transcription ∧
      (stopRecording env s).2.fs = s.fs ∧
      (stopRecording env s).2.transcribeCalls = s.transcribeCalls ∧
      (stopRecording env s).2.finalUri = some "" := by
  intro env s h1 h2 h3
  have hmv : moveChunksToRecordings env.ts s.chunkFiles 0 s.fs = ([], s.fs) :=
    moveChunksToRecordings_none env.ts s.chunkFiles 0 s.fs h3
  refine ⟨?_, ?_, ?_, ?_, ?_, ?_, ?_, ?_⟩ <;>
    simp [stopRecording, h1, h2, hmv]

theorem stopRecording_rerun_after_drain_witness :
    (stopRecording demoEnv demoState).2.fullRec = none ∧
    (stopRecording demoEnv2 (stopRecording demoEnv demoState).2).1.uri = "" ∧
    (stopRecording demoEnv2 (stopRecording demoEnv demoState).2).1.audioParts = [] ∧
    (stopRecording demoEnv2 (stopRecording demoEnv demoState).2).2.fs
      = (stopRecording demoEnv demoState).2.fs := by
  obtain ⟨_, hu, ha, _, _, hfs, _, _⟩ := stopRecording_rerun_after_drain demoEnv2
    (stopRecording demoEnv demoState).2 (by decide) (by decide) (by decide)
  exact ⟨by decide, hu, ha, hfs⟩

/-! ## C2 — diarization response: fence stripping, parse failure,
accepted shapes -/

theorem stripJsonFences_cons_no_match (c : Char) (rest : List Char)
    (h : ¬(c :: rest).take 7 = ['`', '`', '`', 'j', 's', 'o', 'n']) :
    stripJsonFences (c :: rest) = c :: stripJsonFences rest := by
  rw [stripJsonFences]
  exact dif_neg h

theorem stripJsonFences_fence_head (t : List Char) :
    stripJsonFences ('`' :: '`' :: '`' :: 'j' :: 's' :: 'o' :: 'n' :: t)
      = stripJsonFences (t.dropWhile isWs) := by
  rw [stripJsonFences]
  rw [dif_pos (show ('`' :: '`' :: '`' :: 'j' :: 's' :: 'o' :: 'n' :: t).take 7
      = ['`', '`', '`', 'j', 's', 'o', 'n'] from rfl)]
  rfl

theorem stripBareFences_cons_no_match (c : Char) (rest : List Char)
    (h : ¬(c :: rest).take 3 = ['`', '`', '`']) :
    stripBareFences (c :: rest) = c :: stripBareFences rest := by
  rw [stripBareFences]
  exact dif_neg h

theorem stripBareFences_fence_head (t : List Char) :
    stripBareFences ('`' :: '`' :: '`' :: t)
      = stripBareFences (t.dropWhile isWs) := by
  rw [stripBareFences]
  rw [dif_pos (show ('`' :: '`' :: '`' :: t).take 3 = ['`', '`', '`'] from rfl)]
  rfl

theorem stripJsonFences_nil_eq : stripJsonFences [] = [] := by
  rw [stripJsonFences]

theorem stripBareFences_nil_eq : stripBareFences [] = [] := by
  rw [stripBareFences]

theorem stripJsonFences_append_of_no_tick :
    ∀ (l t : List Char), '`' ∉ l →
      stripJsonFences (l ++ t) = l ++ stripJsonFences t := by
  intro l
  induction l with
  | nil => intro t _; simp
  | cons c l' ih =>
    intro t h
    rw [List.mem_cons, not_or] at h
    obtain ⟨h1, h2⟩ := h
    have hnm : ¬((c :: (l' ++ t)).take 7 = ['`', '`', '`', 'j', 's', 'o', 'n']) := by
      intro hEq
      rw [List.take_succ_cons] at hEq
      exact h1 (List.cons_eq_cons.mp hEq).1.symm
    rw [List.cons_append, stripJsonFences_cons_no_match c (l' ++ t) hnm, ih t h2,
      List.cons_append]

theorem stripBareFences_append_of_no_tick :
    ∀ (l t : List Char), '`' ∉ l →
      stripBareFences (l ++ t) = l ++ stripBareFences t := by
  intro l
  induction l with
  | nil => intro t _; simp
  | cons c l' ih =>
    intro t h
    rw [List.mem_cons, not_or] at h
    obtain ⟨h1, h2⟩ := h
    have hnm : ¬((c :: (l' ++ t)).take 3 = ['`', '`', '`']) := by
      intro hEq
      rw [List.take_succ_cons] at hEq
      exact h1 (List.cons_eq_cons.mp hEq).1.symm
    rw [List.cons_append, stripBareFences_cons_no_match c (l' ++ t) hnm, ih t h2,
      List.cons_append]

theorem stripJsonFences_of_no_tick (l : List Char) (h : '`' ∉ l) :
    stripJsonFences l = l := by
  have hx := stripJsonFences_append_of_no_tick l [] h
  rw [List.append_nil, stripJsonFences_nil_eq, List.append_nil] at hx
  exact hx

theorem stripBareFences_of_no_tick (l : List Char) (h : '`' ∉ l) :
    stripBareFences l = l := by
  have hx := stripBareFences_append_of_no_tick l [] h
  rw [List.append_nil, stripBareFences_nil_eq, List.append_nil] at hx
  exact hx

theorem stripJsonFences_three_ticks :
    stripJsonFences ['`', '`', '`'] = ['`', '`', '`'] := by
  rw [stripJsonFences_cons_no_match _ _ (by decide),
    stripJsonFences_cons_no_match _ _ (by decide),
    stripJsonFences_cons_no_match _ _ (by decide), stripJsonFences_nil_eq]

theorem stripBareFences_three_ticks :
    stripBareFences ['`', '`', '`'] = [] := by
  rw [stripBareFences_fence_head, show List.dropWhile isWs ([] : List Char) = []
      from rfl, stripBareFences_nil_eq]

theorem stripJsonFences_nl_ticks :
    stripJsonFences ['\n', '`', '`', '`'] = ['\n', '`', '`', '`'] := by
  rw [stripJsonFences_cons_no_match _ _ (by decide), stripJsonFences_three_ticks]

theorem stripBareFences_nl_ticks :
    stripBareFences ['\n', '`', '`', '`'] = ['\n'] := by
  rw [stripBareFences_cons_no_match _ _ (by decide), stripBareFences_three_ticks]

/-- Wrapping a backtick-free response in a ```json fence does not change
the cleaned character list. -/
theorem cleanResponse_wrap (l : List Char) (h : '`' ∉ l) :
    cleanResponse
      ('`' :: '`' :: '`' :: 'j' :: 's' :: 'o' :: 'n' :: '\n'
        :: (l ++ ['\n', '`', '`', '`']))
      = cleanResponse l := by
  have hdw : List.dropWhile isWs ('\n' :: (l ++ ['\n', '`', '`', '`']))
      = List.dropWhile isWs (l ++ ['\n', '`', '`', '`']) := by
    rw [List.dropWhile_cons]
    simp [isWs]
  rw [cleanResponse, stripJsonFences_fence_head, hdw, List.dropWhile_append]
  by_cases hd : List.dropWhile isWs l = []
  · rw [if_pos (List.isEmpty_iff.mpr hd),
      show List.dropWhile isWs ['\n', '`', '`', '`'] = ['`', '`', '`'] from rfl,
      stripJsonFences_three_ticks, stripBareFences_three_ticks]
    rw [cleanResponse, stripJsonFences_of_no_tick l h, stripBareFences_of_no_tick l h]
    rw [trimChars, trimChars, hd]
    rfl
  · rw [if_neg (fun hx => hd (List.isEmpty_iff.mp hx))]
    have hdt : '`' ∉ List.dropWhile isWs l :=
      fun hm => h ((List.dropWhile_sublist isWs).subset hm)
    rw [stripJsonFences_append_of_no_tick _ _ hdt, stripJsonFences_nl_ticks,
      stripBareFences_append_of_no_tick _ _ hdt, stripBareFences_nl_ticks,
      cleanResponse, stripJsonFences_of_no_tick l h, stripBareFences_of_no_tick l h,
      trimChars, trimChars, List.dropWhile_append, List.dropWhile_idempotent isWs l,
      if_neg (fun hx => hd (List.isEmpty_iff.mp hx)), List.reverse_append]
    simp only [List.reverse_cons, List.reverse_nil, List.nil_append,
      List.singleton_append, List.dropWhile_cons]
    simp [isWs]

/-- Claim C2: cleaning strips markdown fences, so a fence-wrapped LLM
response parses identically to its unwrapped (backtick-free) equivalent;
the parser accepts a bare array and an object with a `segments` array
interchangeably, coercing elements with the defaults
`Desconhecido`/`00:00`/`00:00`/`""`; and a response that is not valid
JSON after cleaning fails with the diarization parse error and leaves the
recording — in particular its stored `dialogue` — unchanged. -/
theorem diarize_parse_fences_and_failure :
    (∀ (parse : String → Option Json) (r : String), '`' ∉ r.data →
      parseDiarizationResponse parse ("```json\n" ++ r ++ "\n```")
        = parseDiarizationResponse parse r) ∧
    (∀ (parse : String → Option Json) (resp : String),
      parse (cleanResponseStr resp) = none →
      parseDiarizationResponse parse resp = .error .parseError) ∧
    (∀ (stringify : Json → String) (parse : String → Option Json)
       (rec : RecordingRow) (parts : List TTResult) (resp : String),
      parse (cleanResponseStr resp) = none →
      handleDiarizeUpdate stringify parse rec parts resp = rec) ∧
    (∀ (parse₁ parse₂ : String → Option Json) (r₁ r₂ : String)
       (es : List Json) (fields : List (String × Json)),
      parse₁ (cleanResponseStr r₁) = some (.arr es) →
      parse₂ (cleanResponseStr r₂) = some (.obj fields) →
      Json.lookup fields "segments" = some (.arr es) →
      parseDiarizationResponse parse₁ r₁ = parseDiarizationResponse parse₂ r₂) ∧
    (coerceDiarizedSegment (.obj [])
      = .ok ⟨.str "Desconhecido", .str "00:00", .str "00:00", .str ""⟩) := by
  refine ⟨?_, ?_, ?_, ?_, rfl⟩
  · intro parse r h
    have hdata : ("```json\n" ++ r ++ "\n```").data
        = '`' :: '`' :: '`' :: 'j' :: 's' :: 'o' :: 'n' :: '\n'
          :: (r.data ++ ['\n', '`', '`', '`']) := by
      rw [String.data_append, String.data_append, List.append_assoc]
      rfl
    have hstr : cleanResponseStr ("```json\n" ++ r ++ "\n```") = cleanResponseStr r := by
      rw [cleanResponseStr, cleanResponseStr]
      exact congrArg String.mk (by rw [hdata]; exact cleanResponse_wrap r.data h)
    simp only [parseDiarizationResponse, hstr]
  · intro parse resp hp
    simp [parseDiarizationResponse, hp]
  · intro stringify parse rec parts resp hp
    simp [handleDiarizeUpdate, parseDiarizationResponse, hp]
  · intro parse₁ parse₂ r₁ r₂ es fields h1 h2 h3
    simp [parseDiarizationResponse, h1, h2, segmentsOfParsed, segmentsField, h3]

theorem diarize_parse_fences_and_failure_witness :
    parseDiarizationResponse (fun _ => none) ("```json\n" ++ "hi" ++ "\n```")
      = parseDiarizationResponse (fun _ => none) "hi" ∧
    parseDiarizationResponse (fun _ => none) "x" = .error .parseError ∧
    handleDiarizeUpdate (fun _ => "s") (fun _ => none)
      ⟨1, "t", "f", none, 3, none, some "old", none, "c", "u"⟩ [] "x"
      = ⟨1, "t", "f", none, 3, none, some "old", none, "c", "u"⟩ ∧
    parseDiarizationResponse (fun _ => some (.arr [])) "a"
      = parseDiarizationResponse (fun _ => some (.obj [("segments", .arr [])])) "b" := by
  obtain ⟨h1, h2, h3, h4, _⟩ := diarize_parse_fences_and_failure
  exact ⟨h1 (fun _ => none) "hi" (by decide), h2 (fun _ => none) "x" rfl,
    h3 (fun _ => "s") (fun _ => none) _ [] "x" rfl,
    h4 (fun _ => some (.arr [])) (fun _ => some (.obj [("segments", .arr [])]))
      "a" "b" [] [("segments", .arr [])] rfl rfl rfl⟩

/-! ## C8 — `isDiarizedTranscription` round trip -/

/-- Claim C8: for every `DiarizedTranscription` value (tag
`diarized: true`, a segments array, a plain text), parsing its
`JSON.stringify` output recovers the identical structure through
`isDiarizedTranscription`; and every input that is not valid JSON —
including a null input — yields `null` without throwing (the model is a
total function).  The `JSON.parse`/`JSON.stringify` builtins are
abstracted; the round trip of the concrete payload is the hypothesis. -/
theorem isDiarizedTranscription_roundtrip :
    (∀ (parse : String → Option Json) (stringify : Json → String)
       (segs : List DiarizedSegmentV) (plain : String),
       stringify (encodeDiarizedTranscription segs plain) ≠ "" →
       parse (stringify (encodeDiarizedTranscription segs plain))
         = some (encodeDiarizedTranscription segs plain) →
       isDiarizedTranscriptionM parse
         (some (stringify (encodeDiarizedTranscription segs plain)))
         = some (encodeDiarizedTranscription segs plain)) ∧
    (∀ (parse : String → Option Json) (s : String),
      parse s = none → isDiarizedTranscriptionM parse (some s) = none) ∧
    (∀ parse : String → Option Json, isDiarizedTranscriptionM parse none = none) := by
  refine ⟨?_, ?_, fun _ => rfl⟩
  · intro parse stringify segs plain hne hp
    simp only [isDiarizedTranscriptionM]
    rw [if_neg hne, hp]
    simp [encodeDiarizedTranscription, jsTruthy, Json.lookup]
  · intro parse s hp
    by_cases hs : s = "" <;> simp [isDiarizedTranscriptionM, hs, hp]

theorem isDiarizedTranscription_roundtrip_witness :
    isDiarizedTranscriptionM
      (fun s => if s = "J" then some (encodeDiarizedTranscription [] "x") else none)
      (some "J") = some (encodeDiarizedTranscription [] "x") ∧
    isDiarizedTranscriptionM
      (fun s => if s = "J" then some (encodeDiarizedTranscription [] "x") else none)
      (some "zz") = none := by
  constructor
  · exact isDiarizedTranscription_roundtrip.1
      (fun s => if s = "J" then some (encodeDiarizedTranscription [] "x") else none)
      (fun _ => "J") [] "x" (by decide) rfl
  · exact isDiarizedTranscription_roundtrip.2.1
      (fun s => if s = "J" then some (encodeDiarizedTranscription [] "x") else none)
      "zz" rfl

/-! ## C7 — deletion attempts every referenced file and always removes
the row -/

theorem deleteParts_attempted (fp : String) :
    ∀ (parts fs : List String),
      (deleteParts fp parts fs).1 = parts.filter (fun p => p ≠ fp) := by
  intro parts
  induction parts with
  | nil => intro fs; rfl
  | cons p rest ih =>
    intro fs
    by_cases hp : p = fp
    · simp [deleteParts, hp, List.filter_cons, ih]
    · simp [deleteParts, hp, List.filter_cons, ih]

theorem fsDelete_eq_filter (fs : List String) (p : String) :
    (if fs.contains p then fsDelete fs p else fs) = fs.filter (fun x => x ≠ p) := by
  by_cases hc : fs.contains p
  · rw [if_pos hc]
    rfl
  · rw [if_neg hc, Eq.comm, List.filter_eq_self]
    intro a ha
    have hne : a ≠ p := by
      intro h
      subst h
      exact hc (List.elem_eq_true_of_mem ha)
    simp [hne]

theorem deleteParts_fs (fp : String) :
    ∀ (parts fs : List String),
      (deleteParts fp parts fs).2
        = fs.filter (fun x => ¬(x ∈ parts ∧ x ≠ fp)) := by
  intro parts
  induction parts with
  | nil =>
    intro fs
    simp [deleteParts]
  | cons p rest ih =>
    intro fs
    by_cases hp : p = fp
    · rw [show deleteParts fp (p :: rest) fs = deleteParts fp rest fs from by
        simp [deleteParts, hp]]
      rw [ih]
      refine List.filter_congr ?_
      intro x _
      by_cases hx : x = fp <;> by_cases hm : x ∈ rest <;> simp [hx, hm, hp]
    · rw [show (deleteParts fp (p :: rest) fs).2
          = (deleteParts fp rest (if fs.contains p then fsDelete fs p else fs)).2 from by
        simp [deleteParts, hp]]
      rw [fsDelete_eq_filter, ih, List.filter_filter]
      refine List.filter_congr ?_
      intro x _
      by_cases hx : x = p <;> by_cases hm : x ∈ rest <;> simp [hx, hm, hp]

/-- Claim C7: deleting a persisted recording probes and deletes the main
`file_path` and every distinct entry of `audio_parts`; the database row
is removed unconditionally, in particular when some referenced files are
already missing (a missing file is skipped by the existence check, never
an error). -/
theorem handleDelete_deletes_all_references :
    ∀ (parseArr : String → Option (List String)) (rec : RecordingRow)
      (fs : List String),
      (handleDelete parseArr rec fs).dbDeleted = true ∧
      (handleDelete parseArr rec fs).attempted
        = rec.file_path :: (getAudioParts parseArr rec).filter (fun p => p ≠ rec.file_path) ∧
      (handleDelete parseArr rec fs).fs
        = fs.filter (fun x => ¬(x = rec.file_path ∨ x ∈ getAudioParts parseArr rec)) ∧
      (∀ p, p ∈ getAudioParts parseArr rec →
        p ∈ (handleDelete parseArr rec fs).attempted) ∧
      rec.file_path ∈ (handleDelete parseArr rec fs).attempted := by
  intro parseArr rec fs
  refine ⟨rfl, ?_, ?_, ?_, ?_⟩
  · simp [handleDelete, deleteParts_attempted]
  · rw [show (handleDelete parseArr rec fs).fs
        = (deleteParts rec.file_path (getAudioParts parseArr rec)
            (if fs.contains rec.file_path then fsDelete fs rec.file_path else fs)).2
      from rfl]
    rw [deleteParts_fs, fsDelete_eq_filter, List.filter_filter]
    refine List.filter_congr ?_
    intro x _
    by_cases hx : x = rec.file_path <;>
      by_cases hm : x ∈ getAudioParts parseArr rec <;> simp [hx, hm]
  · intro p hp
    rw [show (handleDelete parseArr rec fs).attempted
        = rec.file_path :: (deleteParts rec.file_path (getAudioParts parseArr rec)
            (if fs.contains rec.file_path then fsDelete fs rec.file_path else fs)).1
      from rfl]
    rw [deleteParts_attempted]
    by_cases hpf : p = rec.file_path
    · exact hpf ▸ List.mem_cons_self _ _
    · exact List.mem_cons_of_mem _ (List.mem_filter.mpr ⟨hp, by simp [hpf]⟩)
  · exact List.mem_cons_self _ _

theorem handleDelete_deletes_all_references_witness :
    (handleDelete (fun _ => some ["a", "b", "c"])
        ⟨1, "t", "f", some "parts", 3, none, none, none, "c", "u"⟩
        ["a", "c", "f"]).dbDeleted = true ∧
    "b" ∈ (handleDelete (fun _ => some ["a", "b", "c"])
        ⟨1, "t", "f", some "parts", 3, none, none, none, "c", "u"⟩
        ["a", "c", "f"]).attempted ∧
    (handleDelete (fun _ => some ["a", "b", "c"])
        ⟨1, "t", "f", some "parts", 3, none, none, none, "c", "u"⟩
        ["a", "c", "f"]).fs = [] := by
  obtain ⟨h1, _, h3, h4, _⟩ := handleDelete_deletes_all_references
    (fun _ => some ["a", "b", "c"])
    ⟨1, "t", "f", some "parts", 3, none, none, none, "c", "u"⟩
    ["a", "c", "f"]
  refine ⟨h1, h4 "b" (by decide), ?_⟩
  rw [h3]
  decide

theorem generateDossier_placeholder_witness :
    generateDossierWithOpenAIResult ⟨[]⟩ = "Erro ao gerar dossiê." ∧
    generateDossierWithGroqResult ⟨[]⟩ = "Erro ao gerar dossiê." ∧
    (handleGenerateDossierUpdate ⟨1, "t", "f", none, 3, some "x", none, none, "c", "u"⟩
      (generateDossierWithOpenAIResult ⟨[]⟩)).dossier = some "Erro ao gerar dossiê." := by
  obtain ⟨h1, h2, h3⟩ := generateDossier_placeholder ⟨[]⟩ (Or.inl rfl)
  exact ⟨h1, h2, h3 _ "x" rfl (by decide)⟩

end Gravador
